import Mathlib

/-!
# Verification of the `nopkg` static analyzer and usage-example generator

Shallow embedding of `src/nopkg/analysis.py`: the module/package analyzer
(`analyze_module`, `analyze_package`), the argument-value suggestion table
(`_suggest_arg_value`, embedded as `suggest_arg_value`), and the usage-example
generators (`generate_usage_examples`, `generate_package_usage_examples`).

Python's `ast` module is external to the repository; a parsed file is embedded
as the resulting top-level statement list, and the fallible open/decode/parse
pipeline as an `Except` value carrying one of the three exception kinds the
analyzer catches.
-/

namespace Nopkg

/-! ## Python string primitives

Python's string operations are embedded as structurally recursive functions on
the underlying character list, so that every definition in this file is
kernel-computable on concrete inputs. ASCII behaviour is modelled exactly; the
analyzed names are Python identifiers, for which ASCII case handling agrees
with Python's. -/

/-- Python `s.startswith(pre)`. -/
def pyStartsWith (s pre : String) : Bool := pre.data.isPrefixOf s.data

/-- Python `s.endswith(suf)`. -/
def pyEndsWith (s suf : String) : Bool := suf.data.isSuffixOf s.data

/-- `needle.isPrefixOf` some tail of `haystack`. -/
def listContainsSub (needle : List Char) : List Char → Bool
  | [] => needle.isEmpty
  | c :: rest => needle.isPrefixOf (c :: rest) || listContainsSub needle rest

/-- Python `needle in haystack` (substring containment). -/
def containsSub (haystack needle : String) : Bool :=
  listContainsSub needle.data haystack.data

/-- Python `s.lower()` (ASCII). -/
def pyLower (s : String) : String := ⟨s.data.map Char.toLower⟩

/-- Python's left-to-right, non-overlapping `arg.replace('=...', '')`,
specialised to the only pattern the source replaces. -/
def removeMarkerChars : List Char → List Char
  | '=' :: '.' :: '.' :: '.' :: rest => removeMarkerChars rest
  | c :: rest => c :: removeMarkerChars rest
  | [] => []

/-- Python `arg.replace('=...', '')`. -/
def removeMarker (s : String) : String := ⟨removeMarkerChars s.data⟩

/-- Python `s.split('\n')[0]`: the characters before the first newline. -/
def firstLineOf (s : String) : String := ⟨s.data.takeWhile (fun c => c ≠ '\n')⟩

/-- Python `s.strip()`: drop whitespace from both ends. -/
def pyStrip (s : String) : String :=
  ⟨((s.data.dropWhile Char.isWhitespace).reverse.dropWhile Char.isWhitespace).reverse⟩

/-- Python `s.islower()` (ASCII): at least one cased character and no uppercase
character. -/
def pyIslower (s : String) : Bool :=
  s.data.any (fun c => c.isLower) && s.data.all (fun c => !c.isUpper)

/-- Python `', '.join(l)`. -/
def joinComma (l : List String) : String := String.intercalate ", " l

/-- The three exception kinds caught by `analyze_module` / `analyze_package`:
`SyntaxError`, `UnicodeDecodeError`, `OSError`. -/
inductive AnalysisError where
  | syntaxError
  | unicodeDecodeError
  | osError
deriving DecidableEq, Repr

/-- The shape of an assignment's right-hand side, as the analyzer classifies it:
`ast.Constant`, `ast.Str`, `ast.Num`, or any other (computed) expression. -/
inductive PyExpr where
  | constantE
  | strE
  | numE
  | otherE
deriving DecidableEq, Repr

/-- An assignment target: either a plain `ast.Name` or anything else
(tuple/attribute/subscript targets, which the analyzer ignores). -/
inductive PyTarget where
  | name (id : String)
  | otherT
deriving DecidableEq, Repr

/-- A top-level (or class-body) Python statement, restricted to the node kinds
`analyze_module` / `analyze_package` inspect. A `functionDef` carries the
positional parameter names (`node.args.args`), the number of default
expressions (`len(node.args.defaults)`) and the result of
`ast.get_docstring` (`none` when no docstring is attached). `importFrom`
carries the `(name, asname)` pairs of `node.names`. Every other statement
kind is `otherS`. -/
inductive PyStmt where
  | functionDef (name : String) (args : List String) (numDefaults : Nat)
      (docstring : Option String)
  | asyncFunctionDef (name : String) (args : List String) (numDefaults : Nat)
      (docstring : Option String)
  | classDef (name : String) (body : List PyStmt) (docstring : Option String)
  | assign (targets : List PyTarget) (value : PyExpr)
  | importFrom (module : Option String) (names : List (String × Option String))
  | otherS

/-- `isinstance(node.value, (ast.Constant, ast.Str, ast.Num))`. -/
def PyExpr.isSimpleLiteral : PyExpr → Bool
  | .constantE => true
  | .strE => true
  | .numE => true
  | .otherE => false

/-- A function descriptor as the analyzer records it: the dict
`{'name': ..., 'args': ..., 'docstring': ...}`. -/
structure FuncInfo where
  name : String
  args : List String
  docstring : String
deriving DecidableEq, Repr

/-- A method descriptor: the dict `{'name': ..., 'args': ...}` recorded inside
a class (no docstring field). -/
structure MethodInfo where
  name : String
  args : List String
deriving DecidableEq, Repr

/-- A class descriptor: the dict `{'name': ..., 'methods': ..., 'docstring': ...}`. -/
structure ClassInfo where
  name : String
  methods : List MethodInfo
  docstring : String
deriving DecidableEq, Repr

/-- The module-analysis result `{'functions': ..., 'classes': ..., 'variables': ...}`. -/
structure ModuleReport where
  functions : List FuncInfo
  classes : List ClassInfo
  vars : List String
deriving DecidableEq, Repr

/-- `{'functions': [], 'classes': [], 'variables': []}`. -/
def emptyReport : ModuleReport := ⟨[], [], []⟩

/-- `args[:-nd] + [f"{arg}=..." for arg in args[-nd:]] if nd else args`
(Python negative slicing; `Nat` truncated subtraction matches Python's
clamping for `nd > len(args)`). -/
def formatArgs (args : List String) (nd : Nat) : List String :=
  if nd = 0 then args
  else (args.take (args.length - nd)) ++
       ((args.drop (args.length - nd)).map (fun a => a ++ "=..."))

/-- The inner loop of the `ClassDef` branch: collect the public `FunctionDef`
entries of a class body as methods, with `self` filtered from the
parameter list. -/
def extractMethods : List PyStmt → List MethodInfo
  | [] => []
  | .functionDef n args _ _ :: rest =>
      if pyStartsWith n "_" then extractMethods rest
      else ⟨n, args.filter (fun a => a ≠ "self")⟩ :: extractMethods rest
  | _ :: rest => extractMethods rest

/-- The inner `for target in node.targets` loop of the `Assign` branch: for
each `ast.Name` target not starting with an underscore, when the value is a
simple literal, record the target's id. -/
def assignVars (value : PyExpr) : List PyTarget → List String
  | [] => []
  | .name id :: rest =>
      if pyStartsWith id "_" then assignVars value rest
      else if value.isSimpleLiteral then id :: assignVars value rest
      else assignVars value rest
  | .otherT :: rest => assignVars value rest

/-- The top-level statement walk of `analyze_module` (the `for node in
tree.body` loop), producing functions, classes and variables in first-seen
order. -/
def analyzeBody : List PyStmt → ModuleReport
  | [] => emptyReport
  | s :: rest =>
    let r := analyzeBody rest
    match s with
    | .functionDef n args nd doc =>
        if pyStartsWith n "_" then r
        else
          { r with functions :=
              ⟨n, formatArgs (args.filter (fun a => a ≠ "self")) nd,
               doc.getD ""⟩ :: r.functions }
    | .classDef n body doc =>
        if pyStartsWith n "_" then r
        else
          { r with classes := ⟨n, extractMethods body, doc.getD ""⟩ :: r.classes }
    | .assign targets value =>
        { r with vars := assignVars value targets ++ r.vars }
    | _ => r

/-- A path argument to `analyze_module`, resolved against the filesystem:
whether the path exists, its suffix, and the outcome of the
open/read/decode/parse pipeline (an exception of one of the caught kinds, or
the parsed top-level statement list). -/
structure PyFile where
  fileExists : Bool
  suffix : String
  content : Except AnalysisError (List PyStmt)

/-- `analyze_module`: empty report on a missing path or wrong extension; empty
report when open/decode/parse raises one of the caught exceptions; otherwise
the top-level walk of the parsed tree. -/
def analyze_module (f : PyFile) : ModuleReport :=
  if !f.fileExists || f.suffix ≠ ".py" then emptyReport
  else
    match f.content with
    | .error _ => emptyReport
    | .ok tree => analyzeBody tree

/-- The abbreviated per-submodule report stored under `submodule_details`:
`{'functions': ..., 'classes': ...}`. -/
structure SubDetails where
  functions : List FuncInfo
  classes : List ClassInfo
deriving DecidableEq, Repr

/-- The package-analysis result
`{'modules': ..., 'functions': ..., 'classes': ..., 'variables': ...,
'submodule_details': ...}`; the details dict is kept as an association list in
insertion order. -/
structure PackageReport where
  modules : List String
  functions : List FuncInfo
  classes : List ClassInfo
  vars : List String
  submodule_details : List (String × SubDetails)
deriving DecidableEq, Repr

/-- `{'modules': [], 'functions': [], 'classes': [], 'variables': [],
'submodule_details': {}}`. -/
def emptyPackageReport : PackageReport := ⟨[], [], [], [], []⟩

/-- The inner `for alias in node.names` loop of the re-export scan: skip star
imports and underscore-prefixed originals, compute the exported name
(`asname` if given, else the original), skip underscore-prefixed exports, and
append the name to the variables list when it is not already among the
function names, class names, or variables collected so far. -/
def addAliases (fnames cnames : List String) (vars : List String) :
    List (String × Option String) → List String
  | [] => vars
  | (nm, asn) :: rest =>
      if nm = "*" || pyStartsWith nm "_" then addAliases fnames cnames vars rest
      else if pyStartsWith (asn.getD nm) "_" then addAliases fnames cnames vars rest
      else if asn.getD nm ∈ fnames || asn.getD nm ∈ cnames || asn.getD nm ∈ vars then
        addAliases fnames cnames vars rest
      else addAliases fnames cnames (vars ++ [asn.getD nm]) rest

/-- The outer `for node in tree.body` loop of the re-export scan: process the
name list of every `ImportFrom` node. -/
def addReexports (fnames cnames : List String) (vars : List String) :
    List PyStmt → List String
  | [] => vars
  | .importFrom _ names :: rest =>
      addReexports fnames cnames (addAliases fnames cnames vars names) rest
  | _ :: rest => addReexports fnames cnames vars rest

/-- A directory argument to `analyze_package`: whether the path is a
directory, the content of `__init__.py` when that file exists, and the
sibling `*.py` files as `(stem, file)` pairs in glob order (the `__init__`
stem is not excluded here; the source filters it in the loop). -/
structure PyDir where
  isDir : Bool
  init : Option (Except AnalysisError (List PyStmt))
  siblings : List (String × PyFile)

/-- `analyze_package`: empty package report unless the path is a directory
containing `__init__.py`; otherwise seed functions/classes/variables from
`analyze_module` on `__init__.py`, extend the variables with re-exported
aliases found in the init file's top-level `ImportFrom` statements (skipped
wholesale when re-reading/parsing raises), and catalog each sibling `*.py`
file whose name is not `__init__.py` and whose stem does not start with an
underscore as a submodule with its own filtered functions/classes. -/
def analyze_package (d : PyDir) : PackageReport :=
  match d.init with
  | none => emptyPackageReport
  | some content =>
    if !d.isDir then emptyPackageReport
    else
      let initRep := analyze_module ⟨true, ".py", content⟩
      let vars :=
        match content with
        | .ok tree =>
            addReexports (initRep.functions.map (fun f => f.name))
              (initRep.classes.map (fun c => c.name)) initRep.vars tree
        | .error _ => initRep.vars
      let subs := d.siblings.filter
        (fun p => p.1 ≠ "__init__" && !pyStartsWith p.1 "_")
      { modules := subs.map (fun p => p.1)
        functions := initRep.functions
        classes := initRep.classes
        vars := vars
        submodule_details := subs.map (fun p =>
          let rep := analyze_module p.2
          (p.1,
           ⟨rep.functions.filter (fun f => !pyStartsWith f.name "_"),
            rep.classes.filter (fun c => !pyStartsWith c.name "_")⟩)) }

/-- `any(word in arg_lower for word in ws)`. -/
def anyWordIn (al : String) (ws : List String) : Bool :=
  ws.any (fun w => containsSub al w)

/-- `if cond: return lit` steps of the ordered suggestion table, in source
order: the first pair whose condition holds supplies the literal, and the
final fallback is `1`. -/
def firstMatch : List (Bool × String) → String
  | [] => "1"
  | (c, v) :: rest => if c then v else firstMatch rest

/-- The ordered pattern table of `_suggest_arg_value`, abstracted over the
two locals of the source: `arg` (the name with the `=...` marker stripped)
and `al` (its lower-cased form, `arg_lower`). Each entry is one `if` of the
source chain, in source order: a substring / equality / suffix condition
paired with the literal returned on its first match. -/
def suggestionRules (arg al : String) : List (Bool × String) :=
  [ (anyWordIn al ["email", "mail", "to_address", "from_address"], "\"user@example.com\""),
    (containsSub al "address", "\"123 Main St\""),
    (anyWordIn al ["name", "username", "user"], "\"alice\""),
    (anyWordIn al ["title", "heading", "label"], "\"My Title\""),
    (anyWordIn al ["subject"], "\"Important Message\""),
    (anyWordIn al ["body", "text", "string", "msg", "content"], "\"hello world\""),
    (containsSub al "message" && !containsSub al "messages", "\"hello world\""),
    (anyWordIn al ["path", "filepath", "filename", "file"], "\"data.txt\""),
    (anyWordIn al ["url", "uri", "link", "endpoint"], "\"https://api.example.com\""),
    (anyWordIn al ["api_key", "token"] && !containsSub al "max", "\"sk-abc123\""),
    (containsSub al "key" && !containsSub al "max" && !containsSub al "api", "\"key123\""),
    (containsSub al "id", "\"id_123\""),
    (anyWordIn al ["method", "mode", "type", "format", "style"], "\"default\""),
    (anyWordIn al ["model"], "\"gpt-4\""),
    (anyWordIn al ["password", "secret"], "\"secure_pass123\""),
    (anyWordIn al ["base_url"], "\"https://api.example.com\""),
    (anyWordIn al ["messages"], "[\x7b\"role\": \"user\", \"content\": \"hello\"\x7d]"),
    (anyWordIn al ["headers", "header"], "\x7b\"Content-Type\": \"application/json\"\x7d"),
    (anyWordIn al ["attachments", "files"], "[\"file1.txt\", \"file2.pdf\"]"),
    (anyWordIn al ["cc", "bcc"], "[\"user@example.com\"]"),
    (anyWordIn al ["params", "parameters"], "\x7b\"key\": \"value\"\x7d"),
    (anyWordIn al ["tags", "labels"], "[\"tag1\", \"tag2\"]"),
    (containsSub al "max_tokens" || containsSub al "max_token", "1000"),
    (containsSub al "top_p", "0.9"),
    (anyWordIn al ["temperature", "temp"], "0.7"),
    (anyWordIn al ["threshold"], "0.5"),
    (anyWordIn al ["timeout", "delay"], "30"),
    (anyWordIn al ["window", "window_size"], "5"),
    (anyWordIn al ["port"], "8080"),
    (anyWordIn al ["batch_size", "batch"], "32"),
    (anyWordIn al ["epoch"], "10"),
    (anyWordIn al ["learning_rate", "lr"], "0.001"),
    (anyWordIn al ["count", "num", "number", "n"], "10"),
    (anyWordIn al ["page", "offset"], "1"),
    (anyWordIn al ["size", "length"], "100"),
    (anyWordIn al ["width"], "800"),
    (anyWordIn al ["height"], "600"),
    (anyWordIn al ["price", "cost"], "9.99"),
    (anyWordIn al ["age"], "25"),
    (anyWordIn al ["year"], "2024"),
    (anyWordIn al ["rating", "score"], "4.5"),
    (anyWordIn al ["percent", "percentage"], "75"),
    (anyWordIn al ["distance"], "100.0"),
    (anyWordIn al ["index", "idx", "position", "pos"], "0"),
    (anyWordIn al ["max", "limit"], "100"),
    (anyWordIn al ["min", "minimum"], "0"),
    (anyWordIn al ["quantity", "qty", "amount"], "5"),
    (anyWordIn al ["value", "val"], "100"),
    (anyWordIn al ["enable", "enabled", "flag", "verbose", "debug", "stream"], "True"),
    (anyWordIn al ["normalize", "strict", "async"], "True"),
    (anyWordIn al ["list", "items", "values"], "[1, 2, 3]"),
    (anyWordIn al ["data"], "\x7b\"field\": \"value\"\x7d"),
    (anyWordIn al ["dict", "mapping", "config", "options", "settings"], "\x7b\"option\": \"value\"\x7d"),
    (anyWordIn al ["array", "numbers"], "[1, 2, 3]"),
    (decide (al ∈ ["a", "b", "x", "y"]), "10"),
    (decide (al ∈ ["i", "j", "k"]), "0"),
    (decide (al ∈ ["s", "str"]), "\"text\""),
    (containsSub "n" al, "5"),
    (pyEndsWith al "_str" || pyEndsWith al "_text" || pyEndsWith al "_name", "\"text\""),
    (pyEndsWith al "_int" || pyEndsWith al "_num" || pyEndsWith al "_count", "10"),
    (pyEndsWith al "_bool" || pyEndsWith al "_flag", "True"),
    (pyEndsWith al "_list" || pyEndsWith al "_array" || pyEndsWith al "_items", "[]"),
    (pyEndsWith al "_dict" || pyEndsWith al "_map" || pyEndsWith al "_obj", "\x7b\x7d"),
    (pyEndsWith al "_id", "\"id_123\""),
    (pyEndsWith al "_path", "\"path/to/file\""),
    (pyEndsWith al "_url", "\"https://example.com\""),
    (containsSub al "_" || (arg ≠ "" && (match arg.data with | c :: _ => c.isUpper | [] => false)), "\"value\"") ]

/-- The ordered `if` chain of `_suggest_arg_value`: walk the rule table and
return the first matching literal. -/
def suggestFromLower (arg al : String) : String :=
  firstMatch (suggestionRules arg al)

/-- The heuristic suggestion table `_suggest_arg_value` (the leading
underscore of the Python name is dropped): strip the `=...` default marker,
lower-case it, and walk the ordered pattern chain. -/
def suggest_arg_value (arg0 : String) : String :=
  suggestFromLower (removeMarker arg0) (pyLower (removeMarker arg0))

/-- The docstring comment emitted before a function's usage lines: the first
line of the docstring, stripped; emitted only when the docstring and its
stripped first line are non-empty. -/
def docCommentLines (func : FuncInfo) : List String :=
  if func.docstring ≠ "" then
    let d := pyStrip (firstLineOf func.docstring)
    if d ≠ "" then ["# " ++ func.name ++ ": " ++ d] else []
  else []

/-- One rendered example argument: parameters carrying the `=...` default
marker are shown as `name=value` keyword form, others as the bare suggested
value. -/
def renderArgValue (arg : String) : String :=
  let suggested := suggest_arg_value arg
  if containsSub arg "=..." then (removeMarker arg) ++ "=" ++ suggested
  else suggested

/-- The two call renderings for one function in the detailed section: the
declared signature, then a concrete call with suggested values for the first
five parameters (`prefix` is `""` in the module path and `package_name ++ "."`
in the package path). -/
def funcCallLines (pre : String) (func : FuncInfo) : List String :=
  if !func.args.isEmpty then
    [pre ++ func.name ++ "(" ++ joinComma func.args ++ ")",
     pre ++ func.name ++ "(" ++ joinComma ((func.args.take 5).map renderArgValue) ++ ")"]
  else [pre ++ func.name ++ "()"]

/-- `generate_usage_examples` on a module report (the non-package branch of
the source function): base import, wrapped function/class import lines,
detailed per-function usage with docstring comments, then class
instantiation and method-call examples. -/
def generate_module_usage_examples (module_name : String)
    (analysis : ModuleReport) : List String :=
  let public_functions := analysis.functions.filter (fun f => !pyStartsWith f.name "_")
  let public_classes := analysis.classes.filter (fun c => !pyStartsWith c.name "_")
  let base := ["import " ++ module_name, ""]
  let funcImports :=
    if !public_functions.isEmpty then
      let func_names := (public_functions.take 5).map (fun f => f.name)
      (if func_names.length = 1 then
        ["from " ++ module_name ++ " import " ++ func_names.headD ""]
      else if func_names.length ≤ 3 then
        ["from " ++ module_name ++ " import " ++ joinComma func_names]
      else
        ["from " ++ module_name ++ " import (" ++ joinComma (func_names.take 3) ++ ",",
         "                            " ++ joinComma (func_names.drop 3) ++ ")"]) ++ [""]
    else []
  let classImports :=
    if !public_classes.isEmpty then
      let class_names := (public_classes.take 3).map (fun c => c.name)
      (if class_names.length = 1 then
        ["from " ++ module_name ++ " import " ++ class_names.headD ""]
      else
        ["from " ++ module_name ++ " import " ++ joinComma class_names]) ++ [""]
    else []
  let funcDetails :=
    if !public_functions.isEmpty then
      (public_functions.take 5).flatMap
        (fun func => docCommentLines func ++ funcCallLines "" func ++ [""])
    else []
  let classSection :=
    if !public_classes.isEmpty then
      ["# Classes:"] ++ (public_classes.take 3).flatMap (fun cls =>
        ["obj = " ++ cls.name ++ "()"] ++
        (((cls.methods.filter (fun m => !pyStartsWith m.name "_")).take 2).map
          (fun method =>
            if !method.args.isEmpty then
              "obj." ++ method.name ++ "(" ++
                joinComma ((method.args.take 3).map suggest_arg_value) ++ ")"
            else "obj." ++ method.name ++ "()")) ++
        (if public_classes.indexOf cls < public_classes.length - 1 then [""] else []))
    else []
  base ++ funcImports ++ classImports ++ funcDetails ++ classSection

/-- The trailing `while examples and examples[-1] == "": examples.pop()`
loop: drop trailing empty lines. -/
def dropTrailingBlanks (l : List String) : List String :=
  (l.reverse.dropWhile (fun s => s = "")).reverse

/-- Dict membership `mod in submodule_details` plus lookup, on the embedded
association list. -/
def lookupDetails (l : List (String × SubDetails)) (k : String) : Option SubDetails :=
  (l.find? (fun p => p.1 = k)).map (fun p => p.2)

/-- `generate_package_usage_examples`: base import, combined import line for
the most prominent names, per-submodule sections, detailed function usage,
exported-item lines, class examples, and removal of trailing blank lines. -/
def generate_package_usage_examples (package_name : String)
    (analysis : PackageReport) : List String :=
  let public_modules := analysis.modules.filter (fun m => !pyStartsWith m "_")
  let public_functions := analysis.functions.filter (fun f => !pyStartsWith f.name "_")
  let public_classes := analysis.classes.filter (fun c => !pyStartsWith c.name "_")
  let public_variables := analysis.vars.filter (fun v => !pyStartsWith v "_")
  let base := ["import " ++ package_name, ""]
  let importable_items :=
    (if !public_functions.isEmpty then (public_functions.take 3).map (fun f => f.name) else []) ++
    (if !public_classes.isEmpty then (public_classes.take 2).map (fun c => c.name) else []) ++
    (if !public_variables.isEmpty then public_variables.take 3 else [])
  let importSection :=
    if !importable_items.isEmpty then
      (if importable_items.length = 1 then
        ["from " ++ package_name ++ " import " ++ importable_items.headD ""]
      else if importable_items.length ≤ 3 then
        ["from " ++ package_name ++ " import " ++ joinComma importable_items]
      else
        ["from " ++ package_name ++ " import (" ++ joinComma (importable_items.take 2) ++ ",",
         "                            " ++ joinComma (importable_items.drop 2) ++ ")"]) ++ [""]
    else []
  let moduleSection :=
    if !public_modules.isEmpty then
      (public_modules.take 5).flatMap (fun mod =>
        ["# " ++ package_name ++ "." ++ mod ++ ":",
         "from " ++ package_name ++ " import " ++ mod] ++
        (match lookupDetails analysis.submodule_details mod with
         | none => []
         | some details =>
           (if !details.functions.isEmpty then
              let func_names := (details.functions.take 3).map (fun f => f.name)
              if !func_names.isEmpty then
                ["from " ++ package_name ++ "." ++ mod ++ " import " ++ joinComma func_names] ++
                (match details.functions with
                 | first_func :: _ =>
                   if !first_func.args.isEmpty then
                     [mod ++ "." ++ first_func.name ++ "(" ++
                      joinComma ((first_func.args.take 2).map suggest_arg_value) ++ ")"]
                   else [mod ++ "." ++ first_func.name ++ "()"]
                 | [] => [])
              else []
            else []) ++
           (if !details.classes.isEmpty then
              let class_names := (details.classes.take 2).map (fun c => c.name)
              if !class_names.isEmpty then
                ["from " ++ package_name ++ "." ++ mod ++ " import " ++ joinComma class_names] ++
                (match details.classes with
                 | first_class :: _ => ["obj = " ++ first_class.name ++ "()"]
                 | [] => [])
              else []
            else [])) ++
        [""])
    else []
  let funcSection :=
    if !public_functions.isEmpty then
      (public_functions.take 3).flatMap
        (fun func => docCommentLines func ++
          funcCallLines (package_name ++ ".") func ++ [""])
    else []
  let varSection :=
    if !public_variables.isEmpty then
      ["# Exported items:"] ++
      ((public_variables.take 5).map (fun var =>
        if pyIslower var || containsSub var "_" then
          package_name ++ "." ++ var ++ "(...)"
        else package_name ++ "." ++ var)) ++ [""]
    else []
  let classSection :=
    if !public_classes.isEmpty then
      ["# Classes:"] ++ (public_classes.take 3).flatMap (fun cls =>
        ["obj = " ++ package_name ++ "." ++ cls.name ++ "()"] ++
        (match cls.methods.filter (fun m => !pyStartsWith m.name "_") with
         | method :: _ =>
           if !method.args.isEmpty then
             ["obj." ++ method.name ++ "(" ++
              joinComma ((method.args.take 2).map suggest_arg_value) ++ ")"]
           else ["obj." ++ method.name ++ "()"]
         | [] => []) ++
        [""])
    else []
  dropTrailingBlanks
    (base ++ importSection ++ moduleSection ++ funcSection ++ varSection ++ classSection)

/-- The duck-typed report argument of `generate_usage_examples`: the
`'modules' in analysis` check distinguishes a package report from a module
report. -/
inductive Analysis where
  | module (m : ModuleReport)
  | package (p : PackageReport)

/-- `generate_usage_examples`: dispatch to the package-specific path when the
report carries submodule information, otherwise the module path. -/
def generate_usage_examples (module_name : String) : Analysis → List String
  | .package p => generate_package_usage_examples module_name p
  | .module m => generate_module_usage_examples module_name m

/-! ## Claim-side definitions -/

/-- The statement shapes C3 permits in the analyzed file: a function
definition, a class definition, or an assignment whose value is a simple
literal. -/
def isSimpleTopLevel : PyStmt → Bool
  | .functionDef _ _ _ _ => true
  | .classDef _ _ _ => true
  | .assign _ value => value.isSimpleLiteral
  | _ => false

/-- Modelled from C3's words: the declared function names with
underscore-prefixed ones excluded, in declaration order. -/
def declaredFunctionNames (body : List PyStmt) : List String :=
  body.filterMap fun s =>
    match s with
    | .functionDef n _ _ _ => if pyStartsWith n "_" then none else some n
    | _ => none

/-- Modelled from C3's words: the declared class names with
underscore-prefixed ones excluded, in declaration order. -/
def declaredClassNames (body : List PyStmt) : List String :=
  body.filterMap fun s =>
    match s with
    | .classDef n _ _ => if pyStartsWith n "_" then none else some n
    | _ => none

/-- Modelled from C3's words: the names assigned by one assignment statement,
with underscore-prefixed ones excluded, in declaration order. -/
def declaredTargets (targets : List PyTarget) : List String :=
  targets.filterMap fun t =>
    match t with
    | .name id => if pyStartsWith id "_" then none else some id
    | .otherT => none

/-- Modelled from C3's words: the declared constant names with
underscore-prefixed ones excluded, in declaration order. -/
def declaredConstantNames (body : List PyStmt) : List String :=
  body.flatMap fun s =>
    match s with
    | .assign targets _ => declaredTargets targets
    | _ => []

/-- One `ImportFrom` entry re-exports the alias `a`: the original name is not
a wildcard and not underscore-prefixed, and the exported name (`asname` if
given, else the original) is `a`. -/
def exportsAlias (a : String) : PyStmt → Bool
  | .importFrom _ names =>
      names.any (fun e =>
        e.1 ≠ "*" && !pyStartsWith e.1 "_" && (e.2.getD e.1) = a)
  | _ => false

/-- Some top-level statement of the aggregation file re-exports alias `a`. -/
def treeExports (tree : List PyStmt) (a : String) : Bool :=
  tree.any (exportsAlias a)

/-- The concrete C3 witness input: a public function, class, constant, and an
underscore-prefixed (excluded) function. -/
def c3Body : List PyStmt :=
  [PyStmt.functionDef "f" ["x"] 0 none,
   PyStmt.classDef "C" [] none,
   PyStmt.assign [PyTarget.name "X"] PyExpr.constantE,
   PyStmt.functionDef "_h" [] 0 none]

/-- The C6 witness tree: an aggregation file whose only statement re-exports
`foo` from the sibling module `bar`. -/
def c6Tree : List PyStmt := [PyStmt.importFrom (some "bar") [("foo", none)]]

/-- The C6 witness package: a directory whose `__init__.py` parses to
`c6Tree`, with no sibling modules. -/
def c6Dir : PyDir := ⟨true, some (.ok c6Tree), []⟩

/-- The module report of the C4 scenario: one function `greet` with single
non-default parameter `name` and documentation `Say hello`. -/
def greetReport : ModuleReport := ⟨[⟨"greet", ["name"], "Say hello"⟩], [], []⟩

/-- Modelled from C7's words: exclude only an implicit leading receiver
parameter (`self` in head position), retaining every other parameter
regardless of its name or position. -/
def dropLeadingReceiver (args : List String) : List String :=
  match args with
  | "self" :: rest => rest
  | l => l

/-- Modelled from the amended claim's words: remove every parameter named
`self` regardless of position, then mark exactly the trailing parameters of
the remaining list, equal in count to the default expressions, with the
default marker. -/
def amendedParams (args : List String) (nd : Nat) : List String :=
  (((args.filter (fun a => a ≠ "self")).take
      ((args.filter (fun a => a ≠ "self")).length - nd))) ++
  (((args.filter (fun a => a ≠ "self")).drop
      ((args.filter (fun a => a ≠ "self")).length - nd)).map (fun a => a ++ "=..."))

/-! ## Theorems -/

/-- C1: for every input path that is missing, does not end in `.py`, or whose
text raises one of the caught decode/parse exceptions, `analyze_module`
returns the empty report; it is a total function, so it never raises to its
caller. -/
theorem analyze_module_fail_soft (f : PyFile)
    (h : f.fileExists = false ∨ f.suffix ≠ ".py" ∨ ∃ e, f.content = .error e) :
    analyze_module f = emptyReport := by
  unfold analyze_module
  rcases h with h | h | ⟨e, h⟩
  · simp [h]
  · simp [h]
  · simp only [h]
    split
    · rfl
    · rfl

theorem analyze_module_fail_soft_witness :
    ((false = false) ∨ (".py" : String) ≠ ".py" ∨
      ∃ e, (Except.ok [] : Except AnalysisError (List PyStmt)) = .error e) ∧
    analyze_module ⟨false, ".py", .ok []⟩ = emptyReport :=
  ⟨Or.inl rfl, analyze_module_fail_soft ⟨false, ".py", .ok []⟩ (Or.inl rfl)⟩

/-- C10: a top-level `async def` contributes nothing to the functions list,
and an `async def` inside a class body contributes nothing to the method
list; only plain `FunctionDef` nodes are reported. -/
theorem async_defs_omitted (n : String) (args : List String) (nd : Nat)
    (doc : Option String) (rest body : List PyStmt) :
    analyzeBody (PyStmt.asyncFunctionDef n args nd doc :: rest) = analyzeBody rest ∧
    extractMethods (PyStmt.asyncFunctionDef n args nd doc :: body) = extractMethods body :=
  ⟨rfl, by simp [extractMethods]⟩

/-- `firstMatch` returns either the fallback or one of the table's literals. -/
theorem firstMatch_eq_or_mem (rules : List (Bool × String)) :
    firstMatch rules = "1" ∨ firstMatch rules ∈ rules.map (fun p => p.2) := by
  induction rules with
  | nil => exact Or.inl rfl
  | cons p rest ih =>
    obtain ⟨c, v⟩ := p
    cases c with
    | true => right; simp [firstMatch]
    | false =>
      rcases ih with h | h
      · left; simpa [firstMatch] using h
      · right
        simp only [firstMatch, List.map_cons, List.mem_cons]
        exact Or.inr h

/-- C9: the argument-value suggestion function is deterministic and never
returns the empty string (every literal in the rule table is non-empty, as is
the fallback). -/
theorem suggest_arg_value_deterministic_nonempty (s : String) :
    suggest_arg_value s = suggest_arg_value s ∧ suggest_arg_value s ≠ "" := by
  refine ⟨rfl, ?_⟩
  intro h
  unfold suggest_arg_value suggestFromLower at h
  have hm := firstMatch_eq_or_mem (suggestionRules (removeMarker s) (pyLower (removeMarker s)))
  rw [h] at hm
  rcases hm with hm | hm
  · exact absurd hm (by decide)
  · simp [suggestionRules] at hm

/-- C4 counterexample: for the `greet` scenario report and subject
`greetings`, no output line is `greetings.greet("World")` — the module path
renders calls without the subject prefix and the `name` pattern suggests
`"alice"`, not `"World"`. -/
theorem generate_greet_counterexample :
    ¬ ("greetings.greet(\"World\")" ∈
        generate_usage_examples "greetings" (Analysis.module greetReport)) := by
  decide

/-- C4 amended: the output includes `import greetings`,
`from greetings import greet`, a comment line containing `greet: Say hello`,
and the call line `greet("alice")` (the module path renders the call without
the subject prefix, and the `name` pattern suggests `"alice"`). -/
theorem generate_greet_amended :
    "import greetings" ∈ generate_usage_examples "greetings" (Analysis.module greetReport) ∧
    "from greetings import greet" ∈
      generate_usage_examples "greetings" (Analysis.module greetReport) ∧
    (∃ line ∈ generate_usage_examples "greetings" (Analysis.module greetReport),
      pyStartsWith line "#" = true ∧ containsSub line "greet: Say hello" = true) ∧
    "greet(\"alice\")" ∈ generate_usage_examples "greetings" (Analysis.module greetReport) := by
  decide

/-- C5 counterexample: the module path of the generator applied to the empty
report produces two lines (the import plus a trailing blank line), not
exactly one. -/
theorem empty_report_lines_counterexample :
    (generate_usage_examples "m" (Analysis.module emptyReport)).length ≠ 1 := by
  decide

theorem importLine_ne_empty (name : String) : "import " ++ name ≠ "" := by
  intro h
  have h2 := congrArg String.data h
  simp [String.data_append] at h2

/-- C5 amended: for every subject name, the package path on an empty package
report yields exactly the base import line (its trailing-blank removal loop
fires), while the module path on an empty module report yields the base import
line, then one trailing blank line (it has no such loop). -/
theorem empty_report_lines_amended (name : String) :
    generate_package_usage_examples name emptyPackageReport = ["import " ++ name] ∧
    generate_module_usage_examples name emptyReport = ["import " ++ name, ""] := by
  constructor
  · simp [generate_package_usage_examples, emptyPackageReport, dropTrailingBlanks,
      List.dropWhile, importLine_ne_empty name]
  · simp [generate_module_usage_examples, emptyReport]

/-- C7 counterexample: for `def f(a, self, b)`, the analyzer records the
parameter list `[a, b]` — the mid-list parameter named `self` is dropped even
though it is not a leading receiver — while the claim predicts
`[a, self, b]`. -/
theorem recorded_params_counterexample :
    ((analyzeBody [PyStmt.functionDef "f" ["a", "self", "b"] 0 none]).functions.map
        (fun fn => fn.args)) = [["a", "b"]] ∧
    dropLeadingReceiver ["a", "self", "b"] = ["a", "self", "b"] ∧
    (["a", "b"] : List String) ≠ ["a", "self", "b"] := by
  decide

theorem formatArgs_eq_amendedParams (args : List String) (nd : Nat) :
    formatArgs (args.filter (fun a => a ≠ "self")) nd = amendedParams args nd := by
  unfold formatArgs amendedParams
  by_cases h : nd = 0
  · subst h
    simp
  · simp [h]

/-- C7 amended: for every recorded top-level function, the recorded parameter
list is the declared positional list with every parameter named `self`
removed (at any position), and exactly the trailing parameters of that
filtered list, equal in count to the default expressions, carry the default
marker. -/
theorem recorded_params_amended (n : String) (args : List String) (nd : Nat)
    (d : Option String) (rest : List PyStmt) (hn : pyStartsWith n "_" = false) :
    ((analyzeBody (PyStmt.functionDef n args nd d :: rest)).functions.map
        (fun f => f.args)) =
      amendedParams args nd ::
        ((analyzeBody rest).functions.map (fun f => f.args)) := by
  simp [analyzeBody, hn]
  simpa using formatArgs_eq_amendedParams args nd

theorem recorded_params_amended_witness :
    pyStartsWith "f" "_" = false ∧
    ((analyzeBody [PyStmt.functionDef "f" ["a", "self", "b"] 1 none]).functions.map
        (fun f => f.args)) = amendedParams ["a", "self", "b"] 1 :: [] :=
  ⟨by decide,
   recorded_params_amended "f" ["a", "self", "b"] 1 none [] (by decide)⟩

/-- C8 counterexample: for a function whose docstring is the two-line text
`Line one\nLine two`, the analyzer records the full text in the documentation
field, which differs from its first line. -/
theorem docstring_full_counterexample :
    ((analyzeBody [PyStmt.functionDef "f" [] 0 (some "Line one\nLine two")]).functions.map
        (fun fn => fn.docstring)) = ["Line one\nLine two"] ∧
    ("Line one\nLine two" : String) ≠ firstLineOf "Line one\nLine two" := by
  decide

/-- C8 amended: the documentation field recorded for a top-level function or
class is the full attached documentation string (empty when none is
attached); the first-line reduction happens in the generator, not in the
analyzer. -/
theorem docstring_full_amended (n m : String) (args : List String) (nd : Nat)
    (d dc : Option String) (cbody rest : List PyStmt)
    (hn : pyStartsWith n "_" = false) (hm : pyStartsWith m "_" = false) :
    ((analyzeBody (PyStmt.functionDef n args nd d :: rest)).functions.map
        (fun f => f.docstring)) =
      d.getD "" :: ((analyzeBody rest).functions.map (fun f => f.docstring)) ∧
    ((analyzeBody (PyStmt.classDef m cbody dc :: rest)).classes.map
        (fun c => c.docstring)) =
      dc.getD "" :: ((analyzeBody rest).classes.map (fun c => c.docstring)) := by
  constructor
  · simp [analyzeBody, hn]
  · simp [analyzeBody, hm]

theorem docstring_full_amended_witness :
    pyStartsWith "f" "_" = false ∧ pyStartsWith "C" "_" = false ∧
    ((analyzeBody [PyStmt.functionDef "f" [] 0 (some "Line one\nLine two")]).functions.map
        (fun f => f.docstring)) = "Line one\nLine two" :: [] :=
  ⟨by decide, by decide,
   (docstring_full_amended "f" "C" [] 0 (some "Line one\nLine two") none [] []
     (by decide) (by decide)).1⟩

theorem assignVars_of_simple (value : PyExpr) (targets : List PyTarget)
    (h : value.isSimpleLiteral = true) :
    assignVars value targets = declaredTargets targets := by
  induction targets with
  | nil => rfl
  | cons t rest ih =>
    cases t with
    | name id =>
      by_cases hid : pyStartsWith id "_" = true
      · simp [assignVars, declaredTargets, hid, ih]
      · simp [assignVars, declaredTargets, hid, h, ih]
    | otherT => simpa [assignVars, declaredTargets] using ih

/-- C3: for every body made only of function definitions, class definitions,
and simple-literal assignments, the report lists exactly the declared public
function, class, and constant names, in declaration order, with
underscore-prefixed names excluded and no sorting applied. -/
theorem analyze_declared_exactly (body : List PyStmt)
    (h : ∀ s ∈ body, isSimpleTopLevel s = true) :
    ((analyzeBody body).functions.map (fun f => f.name)) = declaredFunctionNames body ∧
    ((analyzeBody body).classes.map (fun c => c.name)) = declaredClassNames body ∧
    (analyzeBody body).vars = declaredConstantNames body := by
  induction body with
  | nil => exact ⟨rfl, rfl, rfl⟩
  | cons s rest ih =>
    have hs : isSimpleTopLevel s = true := h s (List.mem_cons_self s rest)
    obtain ⟨ih1, ih2, ih3⟩ := ih (fun x hx => h x (List.mem_cons_of_mem s hx))
    cases s with
    | functionDef n args nd d =>
      by_cases hn : pyStartsWith n "_" = true
      · simp [analyzeBody, declaredFunctionNames, declaredClassNames,
          declaredConstantNames, hn, ih1, ih2, ih3]
      · simp [analyzeBody, declaredFunctionNames, declaredClassNames,
          declaredConstantNames, hn, ih1, ih2, ih3]
    | classDef n cbody d =>
      by_cases hn : pyStartsWith n "_" = true
      · simp [analyzeBody, declaredFunctionNames, declaredClassNames,
          declaredConstantNames, hn, ih1, ih2, ih3]
      · simp [analyzeBody, declaredFunctionNames, declaredClassNames,
          declaredConstantNames, hn, ih1, ih2, ih3]
    | assign targets value =>
      have hv : value.isSimpleLiteral = true := by simpa [isSimpleTopLevel] using hs
      simp [analyzeBody, declaredFunctionNames, declaredClassNames,
        declaredConstantNames, ih1, ih2, ih3, assignVars_of_simple value targets hv]
    | asyncFunctionDef n args nd d => exact absurd hs (by simp [isSimpleTopLevel])
    | importFrom m names => exact absurd hs (by simp [isSimpleTopLevel])
    | otherS => exact absurd hs (by simp [isSimpleTopLevel])

theorem analyze_declared_exactly_witness :
    (∀ s ∈ c3Body, isSimpleTopLevel s = true) ∧
    ((analyzeBody c3Body).functions.map (fun f => f.name)) = ["f"] ∧
    ((analyzeBody c3Body).classes.map (fun c => c.name)) = ["C"] ∧
    (analyzeBody c3Body).vars = ["X"] := by
  refine ⟨by decide, ?_⟩
  have h := analyze_declared_exactly c3Body (by decide)
  simpa [c3Body, declaredFunctionNames, declaredClassNames, declaredConstantNames,
    declaredTargets] using h

theorem extractMethods_clean (body : List PyStmt) :
    ∀ m ∈ extractMethods body, pyStartsWith m.name "_" = false := by
  induction body with
  | nil => simp [extractMethods]
  | cons s rest ih =>
    cases s with
    | functionDef n args nd d =>
      intro m hm
      by_cases hn : pyStartsWith n "_" = true
      · rw [extractMethods, if_pos hn] at hm
        exact ih m hm
      · rw [extractMethods, if_neg hn] at hm
        simp only [Bool.not_eq_true] at hn
        rcases List.mem_cons.mp hm with rfl | hm
        · exact hn
        · exact ih m hm
    | asyncFunctionDef n args nd d => exact fun m hm => ih m hm
    | classDef n cbody d => exact fun m hm => ih m hm
    | assign targets value => exact fun m hm => ih m hm
    | importFrom mo names => exact fun m hm => ih m hm
    | otherS => exact fun m hm => ih m hm

theorem assignVars_clean (value : PyExpr) (targets : List PyTarget) :
    ∀ v ∈ assignVars value targets, pyStartsWith v "_" = false := by
  induction targets with
  | nil => simp [assignVars]
  | cons t rest ih =>
    cases t with
    | name id =>
      intro v hv
      by_cases hid : pyStartsWith id "_" = true
      · rw [assignVars, if_pos hid] at hv
        exact ih v hv
      · rw [assignVars, if_neg hid] at hv
        simp only [Bool.not_eq_true] at hid
        split at hv
        · rcases List.mem_cons.mp hv with rfl | hv
          · exact hid
          · exact ih v hv
        · exact ih v hv
    | otherT => exact fun v hv => ih v hv

theorem analyzeBody_clean (body : List PyStmt) :
    (∀ f ∈ (analyzeBody body).functions, pyStartsWith f.name "_" = false) ∧
    (∀ c ∈ (analyzeBody body).classes, pyStartsWith c.name "_" = false ∧
      ∀ m ∈ c.methods, pyStartsWith m.name "_" = false) ∧
    (∀ v ∈ (analyzeBody body).vars, pyStartsWith v "_" = false) := by
  induction body with
  | nil => refine ⟨?_, ?_, ?_⟩ <;> simp [analyzeBody, emptyReport]
  | cons s rest ih =>
    obtain ⟨ih1, ih2, ih3⟩ := ih
    cases s with
    | functionDef n args nd d =>
      by_cases hn : pyStartsWith n "_" = true
      · simpa [analyzeBody, hn] using ⟨ih1, ih2, ih3⟩
      · simp only [Bool.not_eq_true] at hn
        refine ⟨?_, ?_, ?_⟩
        · intro f hf
          simp only [analyzeBody, hn] at hf
          rcases List.mem_cons.mp hf with rfl | hf
          · exact hn
          · exact ih1 f hf
        · simpa [analyzeBody, hn] using ih2
        · simpa [analyzeBody, hn] using ih3
    | classDef n cbody d =>
      by_cases hn : pyStartsWith n "_" = true
      · simpa [analyzeBody, hn] using ⟨ih1, ih2, ih3⟩
      · simp only [Bool.not_eq_true] at hn
        refine ⟨?_, ?_, ?_⟩
        · simpa [analyzeBody, hn] using ih1
        · intro c hc
          simp only [analyzeBody, hn] at hc
          rcases List.mem_cons.mp hc with rfl | hc
          · exact ⟨hn, extractMethods_clean cbody⟩
          · exact ih2 c hc
        · simpa [analyzeBody, hn] using ih3
    | assign targets value =>
      refine ⟨?_, ?_, ?_⟩
      · simpa [analyzeBody] using ih1
      · simpa [analyzeBody] using ih2
      · intro v hv
        simp only [analyzeBody] at hv
        rcases List.mem_append.mp hv with hv | hv
        · exact assignVars_clean value targets v hv
        · exact ih3 v hv
    | asyncFunctionDef n args nd d => exact ⟨ih1, ih2, ih3⟩
    | importFrom mo names => exact ⟨ih1, ih2, ih3⟩
    | otherS => exact ⟨ih1, ih2, ih3⟩

theorem analyze_module_clean (f : PyFile) :
    (∀ fn ∈ (analyze_module f).functions, pyStartsWith fn.name "_" = false) ∧
    (∀ c ∈ (analyze_module f).classes, pyStartsWith c.name "_" = false ∧
      ∀ m ∈ c.methods, pyStartsWith m.name "_" = false) ∧
    (∀ v ∈ (analyze_module f).vars, pyStartsWith v "_" = false) := by
  unfold analyze_module
  split
  · refine ⟨?_, ?_, ?_⟩ <;> simp [emptyReport]
  · match f.content with
    | .error _ => refine ⟨?_, ?_, ?_⟩ <;> simp [emptyReport]
    | .ok tree => exact analyzeBody_clean tree

theorem addAliases_clean (fnames cnames : List String) (vars : List String)
    (names : List (String × Option String))
    (hv : ∀ v ∈ vars, pyStartsWith v "_" = false) :
    ∀ v ∈ addAliases fnames cnames vars names, pyStartsWith v "_" = false := by
  induction names generalizing vars with
  | nil => simpa [addAliases] using hv
  | cons e rest ih =>
    obtain ⟨nm, asn⟩ := e
    by_cases h1 : (nm = "*" || pyStartsWith nm "_") = true
    · rw [addAliases, if_pos h1]
      exact ih vars hv
    · by_cases h2 : pyStartsWith (asn.getD nm) "_" = true
      · rw [addAliases, if_neg h1, if_pos h2]
        exact ih vars hv
      · by_cases h3 : (asn.getD nm ∈ fnames || asn.getD nm ∈ cnames ||
            asn.getD nm ∈ vars) = true
        · rw [addAliases, if_neg h1, if_neg h2, if_pos h3]
          exact ih vars hv
        · rw [addAliases, if_neg h1, if_neg h2, if_neg h3]
          apply ih
          intro v hv2
          rcases List.mem_append.mp hv2 with h | h
          · exact hv v h
          · rcases List.mem_singleton.mp h with rfl
            simpa using h2

theorem addReexports_clean (fnames cnames : List String) (vars : List String)
    (tree : List PyStmt)
    (hv : ∀ v ∈ vars, pyStartsWith v "_" = false) :
    ∀ v ∈ addReexports fnames cnames vars tree, pyStartsWith v "_" = false := by
  induction tree generalizing vars with
  | nil => simpa [addReexports] using hv
  | cons s rest ih =>
    cases s with
    | importFrom mo names =>
      exact ih _ (addAliases_clean fnames cnames vars names hv)
    | functionDef n args nd d => exact ih vars hv
    | asyncFunctionDef n args nd d => exact ih vars hv
    | classDef n cbody d => exact ih vars hv
    | assign targets value => exact ih vars hv
    | otherS => exact ih vars hv

/-- C2: no name starting with an underscore ever appears in a report: not
among functions, classes, class method names, or constants of a module
report, nor among modules, functions, classes and their methods, constants
(including re-exported aliases), or submodule detail entries of a package
report. -/
theorem no_underscore_in_reports (f : PyFile) (d : PyDir) :
    (∀ fn ∈ (analyze_module f).functions, pyStartsWith fn.name "_" = false) ∧
    (∀ c ∈ (analyze_module f).classes, pyStartsWith c.name "_" = false ∧
      ∀ m ∈ c.methods, pyStartsWith m.name "_" = false) ∧
    (∀ v ∈ (analyze_module f).vars, pyStartsWith v "_" = false) ∧
    (∀ mo ∈ (analyze_package d).modules, pyStartsWith mo "_" = false) ∧
    (∀ fn ∈ (analyze_package d).functions, pyStartsWith fn.name "_" = false) ∧
    (∀ c ∈ (analyze_package d).classes, pyStartsWith c.name "_" = false ∧
      ∀ m ∈ c.methods, pyStartsWith m.name "_" = false) ∧
    (∀ v ∈ (analyze_package d).vars, pyStartsWith v "_" = false) ∧
    (∀ p ∈ (analyze_package d).submodule_details,
      pyStartsWith p.1 "_" = false ∧
      (∀ fn ∈ p.2.functions, pyStartsWith fn.name "_" = false) ∧
      (∀ c ∈ p.2.classes, pyStartsWith c.name "_" = false ∧
        ∀ m ∈ c.methods, pyStartsWith m.name "_" = false)) := by
  obtain ⟨hm1, hm2, hm3⟩ := analyze_module_clean f
  refine ⟨hm1, hm2, hm3, ?_⟩
  unfold analyze_package
  cases hinit : d.init with
  | none =>
    refine ⟨?_, ?_, ?_, ?_, ?_⟩ <;> simp [emptyPackageReport]
  | some content =>
    cases hdir : d.isDir with
    | false =>
      refine ⟨?_, ?_, ?_, ?_, ?_⟩ <;> simp [emptyPackageReport]
    | true =>
      obtain ⟨hi1, hi2, hi3⟩ := analyze_module_clean ⟨true, ".py", content⟩
      have hsib : ∀ p ∈ d.siblings.filter
          (fun p => p.1 ≠ "__init__" && !pyStartsWith p.1 "_"),
          pyStartsWith p.1 "_" = false := by
        intro p hp
        have := (List.mem_filter.mp hp).2
        simp only [Bool.and_eq_true, Bool.not_eq_true'] at this
        exact this.2
      simp only [Bool.not_true, Bool.false_eq_true, if_false]
      refine ⟨?_, hi1, hi2, ?_, ?_⟩
      · intro mo hmo
        simp only [List.mem_map] at hmo
        obtain ⟨p, hp, rfl⟩ := hmo
        exact hsib p hp
      · intro v hv
        match content with
        | .ok tree => exact addReexports_clean _ _ _ tree hi3 v hv
        | .error _ => exact hi3 v hv
      · intro p hp
        simp only [List.mem_map] at hp
        obtain ⟨q, hq, rfl⟩ := hp
        refine ⟨hsib q hq, ?_, ?_⟩
        · intro fn hfn
          have := (List.mem_filter.mp hfn).2
          simpa using this
        · intro c hc
          have hcn := (List.mem_filter.mp hc).2
          obtain ⟨-, h2, -⟩ := analyze_module_clean q.2
          refine ⟨by simpa using hcn, ?_⟩
          exact (h2 c (List.mem_filter.mp hc).1).2

theorem addAliases_sub_mem (fnames cnames : List String) (vars : List String)
    (names : List (String × Option String)) (a : String) (h : a ∈ vars) :
    a ∈ addAliases fnames cnames vars names := by
  induction names generalizing vars with
  | nil => exact h
  | cons e rest ih =>
    obtain ⟨nm, asn⟩ := e
    by_cases h1 : (nm = "*" || pyStartsWith nm "_") = true
    · rw [addAliases, if_pos h1]; exact ih vars h
    · by_cases h2 : pyStartsWith (asn.getD nm) "_" = true
      · rw [addAliases, if_neg h1, if_pos h2]; exact ih vars h
      · by_cases h3 : (asn.getD nm ∈ fnames || asn.getD nm ∈ cnames ||
            asn.getD nm ∈ vars) = true
        · rw [addAliases, if_neg h1, if_neg h2, if_pos h3]; exact ih vars h
        · rw [addAliases, if_neg h1, if_neg h2, if_neg h3]
          exact ih _ (List.mem_append_left _ h)

theorem addAliases_count_skip (fnames cnames : List String) (vars : List String)
    (names : List (String × Option String)) (a : String)
    (h : a ∈ fnames ∨ a ∈ cnames ∨ pyStartsWith a "_" = true ∨ a ∈ vars) :
    (addAliases fnames cnames vars names).count a = vars.count a := by
  revert h
  induction names generalizing vars with
  | nil => intro h; rfl
  | cons e rest ih =>
    intro h
    obtain ⟨nm, asn⟩ := e
    by_cases h1 : (nm = "*" || pyStartsWith nm "_") = true
    · rw [addAliases, if_pos h1]; exact ih vars h
    · by_cases h2 : pyStartsWith (asn.getD nm) "_" = true
      · rw [addAliases, if_neg h1, if_pos h2]; exact ih vars h
      · by_cases h3 : (asn.getD nm ∈ fnames || asn.getD nm ∈ cnames ||
            asn.getD nm ∈ vars) = true
        · rw [addAliases, if_neg h1, if_neg h2, if_pos h3]; exact ih vars h
        · rw [addAliases, if_neg h1, if_neg h2, if_neg h3]
          have hne : asn.getD nm ≠ a := by
            intro he
            rcases h with h | h | h | h
            · exact h3 (by simp [he, h])
            · exact h3 (by simp [he, h])
            · exact h2 (by rw [he]; exact h)
            · exact h3 (by simp [he, h])
          have hcount : (vars ++ [asn.getD nm]).count a = vars.count a := by
            have h0 : List.count a [asn.getD nm] = 0 :=
              List.count_eq_zero.mpr (by simpa using hne.symm)
            simp [List.count_append, h0]
          have h' : a ∈ fnames ∨ a ∈ cnames ∨ pyStartsWith a "_" = true ∨
              a ∈ vars ++ [asn.getD nm] := by
            rcases h with h | h | h | h
            · exact Or.inl h
            · exact Or.inr (Or.inl h)
            · exact Or.inr (Or.inr (Or.inl h))
            · exact Or.inr (Or.inr (Or.inr (List.mem_append_left _ h)))
          rw [ih _ h', hcount]

theorem addAliases_count_new (fnames cnames : List String) (vars : List String)
    (names : List (String × Option String)) (a : String)
    (hf : a ∉ fnames) (hc : a ∉ cnames) (hu : pyStartsWith a "_" = false)
    (hv : a ∉ vars) :
    (addAliases fnames cnames vars names).count a =
      (if names.any (fun e =>
          e.1 ≠ "*" && !pyStartsWith e.1 "_" && (e.2.getD e.1) = a)
       then 1 else 0) := by
  revert hv
  induction names generalizing vars with
  | nil =>
    intro hv
    simpa [addAliases] using List.count_eq_zero.mpr hv
  | cons e rest ih =>
    intro hv
    obtain ⟨nm, asn⟩ := e
    by_cases h1 : (nm = "*" || pyStartsWith nm "_") = true
    · rw [addAliases, if_pos h1]
      rcases (by simpa using h1 : nm = "*" ∨ pyStartsWith nm "_" = true) with h | h
      · have hx : (nm ≠ "*" : Bool) = false := by simp [h]
        simp only [List.any_cons, hx, Bool.false_and, Bool.false_or]
        exact ih vars hv
      · simp only [List.any_cons, h, Bool.not_true, Bool.and_false, Bool.false_and,
          Bool.false_or]
        exact ih vars hv
    · by_cases h2 : pyStartsWith (asn.getD nm) "_" = true
      · have hea : asn.getD nm ≠ a := by
          intro he
          rw [he, hu] at h2
          exact Bool.false_ne_true h2
        rw [addAliases, if_neg h1, if_pos h2]
        have hx : decide (asn.getD nm = a) = false := by simp [hea]
        simp only [List.any_cons, hx, Bool.and_false, Bool.false_or]
        exact ih vars hv
      · by_cases h3 : (asn.getD nm ∈ fnames || asn.getD nm ∈ cnames ||
            asn.getD nm ∈ vars) = true
        · have hea : asn.getD nm ≠ a := by
            intro he
            rw [he] at h3
            rcases (by simpa using h3 : (a ∈ fnames ∨ a ∈ cnames) ∨ a ∈ vars) with (h | h) | h
            · exact hf h
            · exact hc h
            · exact hv h
          rw [addAliases, if_neg h1, if_neg h2, if_pos h3]
          have hx : decide (asn.getD nm = a) = false := by simp [hea]
          simp only [List.any_cons, hx, Bool.and_false, Bool.false_or]
          exact ih vars hv
        · rw [addAliases, if_neg h1, if_neg h2, if_neg h3]
          simp only [Bool.or_eq_true, not_or, decide_eq_true_eq] at h1
          by_cases hea : asn.getD nm = a
          · rw [hea]
            rw [addAliases_count_skip fnames cnames (vars ++ [a]) rest a
              (Or.inr (Or.inr (Or.inr (List.mem_append_right _ (List.mem_singleton_self a)))))]
            have h1b : pyStartsWith nm "_" = false := by
              simpa using h1.2
            have hx1 : (nm ≠ "*" : Bool) = true := by simp [h1.1]
            have hx2 : (!pyStartsWith nm "_") = true := by simp [h1b]
            have hx3 : decide (asn.getD nm = a) = true := by simp [hea]
            simp only [List.any_cons, hx1, hx2, hx3, Bool.true_and, Bool.true_or]
            rw [if_pos trivial, List.count_append, List.count_eq_zero.mpr hv]
            simp
          · have hv2 : a ∉ vars ++ [asn.getD nm] := by
              intro hmem
              rcases List.mem_append.mp hmem with h | h
              · exact hv h
              · exact hea (List.mem_singleton.mp h).symm
            have hx : decide (asn.getD nm = a) = false := by simp [hea]
            simp only [List.any_cons, hx, Bool.and_false, Bool.false_or]
            exact ih _ hv2

theorem addReexports_count_skip (fnames cnames : List String) (vars : List String)
    (tree : List PyStmt) (a : String)
    (h : a ∈ fnames ∨ a ∈ cnames ∨ pyStartsWith a "_" = true ∨ a ∈ vars) :
    (addReexports fnames cnames vars tree).count a = vars.count a := by
  revert h
  induction tree generalizing vars with
  | nil => intro h; rfl
  | cons s rest ih =>
    intro h
    cases s with
    | importFrom mo names =>
      have h' : a ∈ fnames ∨ a ∈ cnames ∨ pyStartsWith a "_" = true ∨
          a ∈ addAliases fnames cnames vars names := by
        rcases h with h | h | h | h
        · exact Or.inl h
        · exact Or.inr (Or.inl h)
        · exact Or.inr (Or.inr (Or.inl h))
        · exact Or.inr (Or.inr (Or.inr (addAliases_sub_mem fnames cnames vars names a h)))
      have e1 := ih (addAliases fnames cnames vars names) h'
      rw [addAliases_count_skip fnames cnames vars names a h] at e1
      exact e1
    | functionDef n args nd d => exact ih vars h
    | asyncFunctionDef n args nd d => exact ih vars h
    | classDef n cbody d => exact ih vars h
    | assign targets value => exact ih vars h
    | otherS => exact ih vars h

theorem addReexports_count_new (fnames cnames : List String) (vars : List String)
    (tree : List PyStmt) (a : String)
    (hf : a ∉ fnames) (hc : a ∉ cnames) (hu : pyStartsWith a "_" = false)
    (hv : a ∉ vars) :
    (addReexports fnames cnames vars tree).count a =
      (if treeExports tree a then 1 else 0) := by
  revert hv
  induction tree generalizing vars with
  | nil =>
    intro hv
    simpa [addReexports, treeExports] using List.count_eq_zero.mpr hv
  | cons s rest ih =>
    intro hv
    cases s with
    | importFrom mo names =>
      by_cases hex : names.any (fun e =>
          e.1 ≠ "*" && !pyStartsWith e.1 "_" && (e.2.getD e.1) = a) = true
      · have hcnt : (addAliases fnames cnames vars names).count a = 1 := by
          rw [addAliases_count_new fnames cnames vars names a hf hc hu hv, if_pos hex]
        have hmem : a ∈ addAliases fnames cnames vars names := by
          have := List.count_pos_iff.mp (by rw [hcnt]; exact Nat.one_pos)
          exact this
        have e1 := addReexports_count_skip fnames cnames
          (addAliases fnames cnames vars names) rest a
          (Or.inr (Or.inr (Or.inr hmem)))
        have ht : treeExports (PyStmt.importFrom mo names :: rest) a = true := by
          have hstep : treeExports (PyStmt.importFrom mo names :: rest) a =
              (names.any (fun e =>
                e.1 ≠ "*" && !pyStartsWith e.1 "_" && (e.2.getD e.1) = a) ||
               treeExports rest a) := rfl
          rw [hstep, hex, Bool.true_or]
        show List.count a
            (addReexports fnames cnames (addAliases fnames cnames vars names) rest) =
          if treeExports (PyStmt.importFrom mo names :: rest) a = true then 1 else 0
        rw [e1, hcnt, ht, if_pos rfl]
      · rw [Bool.not_eq_true] at hex
        have hcnt0 : (addAliases fnames cnames vars names).count a = 0 := by
          rw [addAliases_count_new fnames cnames vars names a hf hc hu hv,
            if_neg (by rw [hex]; exact Bool.false_ne_true)]
        have hv' : a ∉ addAliases fnames cnames vars names :=
          List.count_eq_zero.mp hcnt0
        have ht : treeExports (PyStmt.importFrom mo names :: rest) a =
            treeExports rest a := by
          have hstep : treeExports (PyStmt.importFrom mo names :: rest) a =
              (names.any (fun e =>
                e.1 ≠ "*" && !pyStartsWith e.1 "_" && (e.2.getD e.1) = a) ||
               treeExports rest a) := rfl
          rw [hstep, hex, Bool.false_or]
        show List.count a
            (addReexports fnames cnames (addAliases fnames cnames vars names) rest) =
          if treeExports (PyStmt.importFrom mo names :: rest) a = true then 1 else 0
        rw [ht]
        exact ih _ hv'
    | functionDef n args nd d =>
      have ht : treeExports (PyStmt.functionDef n args nd d :: rest) a =
          treeExports rest a := Bool.false_or _
      show List.count a (addReexports fnames cnames vars rest) =
        if treeExports (PyStmt.functionDef n args nd d :: rest) a = true then 1 else 0
      rw [ht]
      exact ih vars hv
    | asyncFunctionDef n args nd d =>
      have ht : treeExports (PyStmt.asyncFunctionDef n args nd d :: rest) a =
          treeExports rest a := Bool.false_or _
      show List.count a (addReexports fnames cnames vars rest) =
        if treeExports (PyStmt.asyncFunctionDef n args nd d :: rest) a = true then 1 else 0
      rw [ht]
      exact ih vars hv
    | classDef n cbody d =>
      have ht : treeExports (PyStmt.classDef n cbody d :: rest) a =
          treeExports rest a := Bool.false_or _
      show List.count a (addReexports fnames cnames vars rest) =
        if treeExports (PyStmt.classDef n cbody d :: rest) a = true then 1 else 0
      rw [ht]
      exact ih vars hv
    | assign targets value =>
      have ht : treeExports (PyStmt.assign targets value :: rest) a =
          treeExports rest a := Bool.false_or _
      show List.count a (addReexports fnames cnames vars rest) =
        if treeExports (PyStmt.assign targets value :: rest) a = true then 1 else 0
      rw [ht]
      exact ih vars hv
    | otherS =>
      have ht : treeExports (PyStmt.otherS :: rest) a =
          treeExports rest a := Bool.false_or _
      show List.count a (addReexports fnames cnames vars rest) =
        if treeExports (PyStmt.otherS :: rest) a = true then 1 else 0
      rw [ht]
      exact ih vars hv

/-- C6: in a package whose aggregation file parses, a re-exported alias that
is not captured as a function name, class name, or assigned constant and is
not underscore-prefixed appears in the constants list exactly once (however
often it is re-exported); and an alias already captured as a function or
class name is not added to the constants at all (wildcard and
underscore-prefixed entries never match a re-export). -/
theorem reexport_alias_once (d : PyDir) (tree : List PyStmt) (a : String)
    (hdir : d.isDir = true) (hinit : d.init = some (Except.ok tree)) :
    ((a ∉ (analyzeBody tree).functions.map (fun f => f.name) →
      a ∉ (analyzeBody tree).classes.map (fun c => c.name) →
      a ∉ (analyzeBody tree).vars →
      pyStartsWith a "_" = false →
      treeExports tree a = true →
      (analyze_package d).vars.count a = 1)) ∧
    ((a ∈ (analyzeBody tree).functions.map (fun f => f.name) ∨
      a ∈ (analyzeBody tree).classes.map (fun c => c.name)) →
      (analyze_package d).vars.count a = (analyzeBody tree).vars.count a) := by
  obtain ⟨isDir, init, siblings⟩ := d
  dsimp only at hdir hinit
  subst hdir
  subst hinit
  have hpkg : (analyze_package ⟨true, some (Except.ok tree), siblings⟩).vars =
      addReexports ((analyzeBody tree).functions.map (fun f => f.name))
        ((analyzeBody tree).classes.map (fun c => c.name))
        ((analyzeBody tree).vars) tree := rfl
  constructor
  · intro hf hc hv hu hexp
    rw [hpkg, addReexports_count_new _ _ _ tree a hf hc hu hv, if_pos hexp]
  · intro hmem
    rw [hpkg]
    rcases hmem with h | h
    · exact addReexports_count_skip _ _ _ tree a (Or.inl h)
    · exact addReexports_count_skip _ _ _ tree a (Or.inr (Or.inl h))

theorem reexport_alias_once_witness :
    c6Dir.isDir = true ∧ c6Dir.init = some (Except.ok c6Tree) ∧
    (analyze_package c6Dir).vars.count "foo" = 1 :=
  ⟨rfl, rfl,
   (reexport_alias_once c6Dir c6Tree "foo" rfl rfl).1
     (by decide) (by decide) (by decide) (by decide) (by decide)⟩

end Nopkg
